import Mathlib

/-!
# Verification of the PlayCanvas multiplayer boilerplate core

Shallow embedding, in Lean 4, of the identity registries, the client message
router, the server worker-shard dispatch, room/entity replication handlers and
the client interpolation buffer of the repository, together with proofs (and
refutations) of the specified behaviours.

Conventions: JavaScript `Map`s keyed by numeric ids are embedded either as
total functions `Nat → Option β` (when only `get`/`has`/`set`/`delete` are
observed) or as association lists `List (Nat × β)`; JavaScript numbers used
for times/values are embedded as `ℚ`; structured `data` payloads are embedded
as records of the fields the routed code reads; side effects (firing events,
invoking callbacks, sending envelopes) are reified as explicit action lists
returned next to the updated state.
-/

/-! ## Identity Registry (client `NetworkEntities.add` / `Users.add`)

`NetworkEntities.add` inserts only when the id is absent and subscribes a
one-shot `destroy` listener that deletes the entry; `Users.add` has the same
shape. A registry trace is a sequence of `add` events (carrying the id and a
token identifying the concrete object) and `destroy` events (the firing of an
object's one-shot termination signal, carrying the object's token). -/

inductive RegEvent where
  | add (id : Nat) (tok : Nat)
  | destroy (tok : Nat)
deriving DecidableEq, Repr

/-- One step of the registry `Map`, from `NetworkEntities.add` and the
`once('destroy', ...)` listener it installs: `add` is a no-op when the id is
already present, otherwise it stores the object and subscribes its destroy
signal; when the destroy signal of an object fires, every entry holding that
object is deleted. The `Map` is embedded as a function `Nat → Option Nat`
from ids to stored object tokens. -/
def regStep (index : Nat → Option Nat) : RegEvent → (Nat → Option Nat)
  | .add i t => if (index i).isSome then index else fun id => if id = i then some t else index id
  | .destroy t => fun id => if index id = some t then none else index id

/-- Run a registry trace from the empty `Map` of the constructor. -/
def regRun (events : List RegEvent) : Nat → Option Nat :=
  events.foldl regStep (fun _ => none)

/-- Registry membership `has(id)`. -/
def regHas (index : Nat → Option Nat) (id : Nat) : Bool :=
  (index id).isSome

/-- Spec-side description, written from the claim's wording for the
refinement statement of the registry claim: per id, the live object token is acquired at the `add` of an
object with that id when none is live (an `add` over an already-present id is
a no-op), and it is released exactly when that object's one-shot destroy
signal fires; `has(id)` is true strictly between those two points and false
otherwise. -/
def liveStep (id : Nat) (cur : Option Nat) : RegEvent → Option Nat
  | .add i t => if i = id then (if cur = none then some t else cur) else cur
  | .destroy t => if cur = some t then none else cur

/-- The token of the object currently alive under `id` after a trace,
according to the spec-side per-id description. -/
def liveTok (events : List RegEvent) (id : Nat) : Option Nat :=
  events.foldl (liveStep id) none

/-- Spec-side `has`. -/
def regHasSpec (events : List RegEvent) (id : Nat) : Bool :=
  (liveTok events id).isSome

lemma regStep_apply (index : Nat → Option Nat) (e : RegEvent) (id : Nat) :
    regStep index e id = liveStep id (index id) e := by
  cases e with
  | add i t =>
    simp only [regStep, liveStep]
    by_cases hid : id = i
    · subst hid
      cases h : index id with
      | none => simp [h]
      | some u => simp [h]
    · have : ¬ i = id := fun h => hid h.symm
      cases hs : (index i).isSome <;> simp [hs, hid, this]
  | destroy t =>
    simp [regStep, liveStep]

lemma regRun_foldl (events : List RegEvent) :
    ∀ (index : Nat → Option Nat) (id : Nat),
      List.foldl regStep index events id = List.foldl (liveStep id) (index id) events := by
  induction events with
  | nil => intro index id; rfl
  | cons e rest ih =>
    intro index id
    simp only [List.foldl_cons]
    rw [ih (regStep index e) id, regStep_apply]

/-- C3, confirmed. For every trace of `add`/destroy-signal events and every
id, the registry's `has(id)` agrees with the spec-side description: true
strictly between the effective `add` of an object with that id and the firing
of that object's one-shot destroy signal, false otherwise; `add` of an
already-present id is a no-op, and the entry is removed by the destroy signal
alone — the trace alphabet contains no explicit `remove` call. -/
theorem registry_has_between_add_and_destroy (events : List RegEvent) (id : Nat) :
    regHas (regRun events) id = regHasSpec events id := by
  unfold regHas regHasSpec regRun liveTok
  rw [regRun_foldl events (fun _ => none) id]

/-! ## Room network-entity deletion (client `Room._onNetworkEntityDelete`)

The handler looks the id up in the room's local `NetworkEntities` index; if
absent it returns, otherwise it calls `networkEntity.entity.destroy()`, whose
one-shot `destroy` signal makes the registry listener delete the entry
(`this._index.delete(networkEntity.id)`). The index is embedded as an
association list of `(id, token)` pairs; the result pairs the new index with
the list of object tokens whose destroy signal fired. -/

def roomOnNetworkEntityDelete (index : List (Nat × Nat)) (id : Nat) :
    List (Nat × Nat) × List Nat :=
  match index.lookup id with
  | none => (index, [])
  | some t => (index.filter (fun p => p.1 != id), [t])

lemma lookup_filter_key_ne (l : List (Nat × Nat)) (id : Nat) :
    (l.filter (fun p => p.1 != id)).lookup id = none := by
  induction l with
  | nil => rfl
  | cons a rest ih =>
    obtain ⟨k, v⟩ := a
    by_cases h : k = id
    · subst h
      simpa using ih
    · rw [show ((k, v) :: rest).filter (fun p => p.1 != id) =
          (k, v) :: rest.filter (fun p => p.1 != id) by simp [h]]
      have hbk : (id == k) = false := by
        simp only [beq_eq_false_iff_ne, ne_eq]
        exact fun hc => h hc.symm
      simp only [List.lookup, hbk]
      exact ih

/-- C7, confirmed. Receiving a delete-by-id message whose id is absent from
the room's local network-entity index is a no-op: the index is unchanged and
no destroy signal fires. When the id is present, exactly the one local mirror
object's destroy signal fires (triggering its one-shot termination chain and
the registry removal), and a duplicate delete of the same id afterwards is a
no-op with no second destroy signal. -/
theorem room_network_entity_delete_idempotent (index : List (Nat × Nat)) (id : Nat) :
    (index.lookup id = none → roomOnNetworkEntityDelete index id = (index, [])) ∧
    (∀ t, index.lookup id = some t →
      (roomOnNetworkEntityDelete index id).2 = [t] ∧
      roomOnNetworkEntityDelete (roomOnNetworkEntityDelete index id).1 id =
        ((roomOnNetworkEntityDelete index id).1, [])) := by
  constructor
  · intro h
    simp [roomOnNetworkEntityDelete, h]
  · intro t h
    constructor
    · simp [roomOnNetworkEntityDelete, h]
    · simp only [roomOnNetworkEntityDelete, h]
      rw [lookup_filter_key_ne]

/-- Witness for `room_network_entity_delete_idempotent` at a concrete index:
deleting absent id 2 is a no-op, and after deleting present id 1 (whose
mirror object 100 is destroyed) a duplicate delete of 1 fires nothing. -/
theorem room_network_entity_delete_idempotent_witness :
    roomOnNetworkEntityDelete [(1, 100)] 2 = ([(1, 100)], []) ∧
    (roomOnNetworkEntityDelete [(1, 100)] 1).2 = [100] ∧
    roomOnNetworkEntityDelete (roomOnNetworkEntityDelete [(1, 100)] 1).1 1 =
      ((roomOnNetworkEntityDelete [(1, 100)] 1).1, []) :=
  ⟨(room_network_entity_delete_idempotent [(1, 100)] 2).1 (by decide),
   ((room_network_entity_delete_idempotent [(1, 100)] 1).2 100 (by decide)).1,
   ((room_network_entity_delete_idempotent [(1, 100)] 1).2 100 (by decide)).2⟩

/-! ## Client message router (client `PlayNetwork._send` / `_onMessage`)

The client `PlayNetwork` keeps `_lastId` (starting at 1) and `_callbacks`, a
`Map` from correlation id to callback. Since the callbacks themselves are
opaque continuations, the `Map` is embedded as the list of registered ids and
every observable effect of `_onMessage` (invoking a callback, logging a
warning, firing an event on a scoped object or on the root, sending the pong)
is reified as a `ClientAction`. JS truthiness of `msg.id` (ids start at 1, so
0 is never assigned) and of `msg.data?.err` (empty strings are falsy) is
embedded explicitly. -/

structure MsgData where
  err : Option String
  nonce : Option Nat
  l : Option Int
  i : Option Int
  o : Option Int
deriving DecidableEq, Repr

structure ClientMsg where
  name : String
  scopeType : String
  scopeId : Option Nat
  data : MsgData
  corrId : Option Nat
deriving DecidableEq, Repr

structure ClientState where
  callbacks : List Nat
  latency : Option Int
  bandwidthIn : Int
  bandwidthOut : Int
  lastId : Nat
deriving DecidableEq, Repr

inductive ClientAction where
  | invokeCallback (id : Nat) (err : Option String)
  | warnNoCallback (id : Nat)
  | warnError (e : String)
  | dispatchUser (name : String)
  | dispatchRoom (sid : Option Nat) (name : String)
  | dispatchPlayer (sid : Option Nat) (name : String)
  | dispatchEntity (sid : Option Nat) (name : String)
  | sendPong (scopeType : String) (sid : Option Nat) (nonce : Option Nat)
  | fireRoot (name : String)
deriving DecidableEq, Repr

/-- JS truthiness of a possibly absent numeric id (`if (msg.id)`). -/
def isTruthyId : Option Nat → Bool
  | some (_ + 1) => true
  | _ => false

/-- JS truthiness of a possibly absent error string (`if (msg.data?.err)`). -/
def isTruthyStr : Option String → Bool
  | some s => !s.isEmpty
  | none => false

/-- JS `msg.data?.err || null`: the callback receives the error when it is
truthy, `null` otherwise. -/
def jsErrOrNull (e : Option String) : Option String :=
  if isTruthyStr e then e else none

/-- Client `PlayNetwork._send`: when a callback is supplied, the current `_lastId`
is embedded in the envelope, the callback is registered under it and
`_lastId` is incremented; without a callback no correlation id is assigned.
Returns the new state and the correlation id put on the wire. -/
def clientSend (st : ClientState) (hasCallback : Bool) : ClientState × Option Nat :=
  if hasCallback then
    ({ st with callbacks := st.callbacks ++ [st.lastId], lastId := st.lastId + 1 },
     some st.lastId)
  else (st, none)

/-- The `switch (msg.scope.type)` dispatch of client `_onMessage`: emit the
message on the scoped object's event stream (the lookup miss of
`this.rooms.get(...)?.fire` is silently skipped, which the action records
uniformly as a dispatch attempt on that scope). -/
def scopeDispatch (msg : ClientMsg) : List ClientAction :=
  if msg.scopeType = "user" then [.dispatchUser msg.name]
  else if msg.scopeType = "room" then [.dispatchRoom msg.scopeId msg.name]
  else if msg.scopeType = "player" then [.dispatchPlayer msg.scopeId msg.name]
  else if msg.scopeType = "networkEntity" then [.dispatchEntity msg.scopeId msg.name]
  else []

/-- Root emission `this.fire(msg.name, msg.data)`. The only root
listener installed by `initialize` that mutates router state is `_onPing`
(for name `_ping`), which sets `latency = data.l`, `bandwidthIn = data.i || 0`
and `bandwidthOut = data.o || 0`. -/
def fireRootStep (st : ClientState) (msg : ClientMsg) (acts : List ClientAction) :
    ClientState × List ClientAction :=
  if msg.name == "_ping" then
    ({ st with latency := msg.data.l, bandwidthIn := msg.data.i.getD 0,
               bandwidthOut := msg.data.o.getD 0 },
     acts ++ [.fireRoot msg.name])
  else (st, acts ++ [.fireRoot msg.name])

/-- Client `PlayNetwork._onMessage`. The source is a straight line of guarded
early returns; the branches below reproduce it: (1) a truthy `msg.id` looks
up `_callbacks` — a miss warns and returns, a hit invokes the callback with
`(msg.data?.err || null, msg.data)` and deletes the entry; (2) a truthy
`msg.data?.err` warns and returns; (3) a truthy `msg.id` returns (correlated
replies are not re-dispatched); (4) scope dispatch; (5) a `_ping` is answered
with a `_pong` envelope on the same scope echoing the nonce `msg.data.id`;
(6) `if (msg.name === '_ping' && msg.scope !== 'user') return` — `msg.scope`
is the `{type, id}` object, and the strict comparison of an object against
the string `'user'` is always true, so every `_ping` returns here; (7) the
message is fired on the root event stream. -/
def clientOnMessage (st : ClientState) (msg : ClientMsg) :
    ClientState × List ClientAction :=
  if isTruthyId msg.corrId then
    let i := msg.corrId.getD 0
    if st.callbacks.contains i then
      let st1 := { st with callbacks := st.callbacks.filter (fun j => j != i) }
      let acts := [ClientAction.invokeCallback i (jsErrOrNull msg.data.err)]
      if isTruthyStr msg.data.err then
        (st1, acts ++ [.warnError (msg.data.err.getD "")])
      else
        (st1, acts)
    else
      (st, [.warnNoCallback i])
  else
    if isTruthyStr msg.data.err then (st, [.warnError (msg.data.err.getD "")])
    else
      let acts := scopeDispatch msg
      let acts := if msg.name == "_ping"
        then acts ++ [ClientAction.sendPong msg.scopeType msg.scopeId msg.data.nonce]
        else acts
      if msg.name == "_ping" then (st, acts)
      else fireRootStep st msg acts

lemma isTruthyId_pos {i : Nat} (h : 0 < i) : isTruthyId (some i) = true := by
  cases i with
  | zero => exact absurd h (by decide)
  | succ n => rfl

/-- C2, confirmed. An envelope whose truthy correlation id matches a
registered pending callback invokes that callback exactly once, with the
error-or-null first argument, and removes the entry; re-processing the same
envelope afterwards (a second reply with the already-consumed id) only logs
`warnNoCallback` and leaves the state untouched. An envelope whose truthy
correlation id matches nothing is logged and dropped with no callback
invocation and no state change; no branch of `_onMessage` touches the
socket, so the connection is never closed. -/
theorem playnetwork_router_correlation (st : ClientState) (msg : ClientMsg) (i : Nat)
    (hc : msg.corrId = some i) (hi : 0 < i) :
    (st.callbacks.contains i = true →
      (clientOnMessage st msg).2.count
          (ClientAction.invokeCallback i (jsErrOrNull msg.data.err)) = 1 ∧
      (clientOnMessage st msg).1.callbacks.contains i = false ∧
      clientOnMessage (clientOnMessage st msg).1 msg =
        ((clientOnMessage st msg).1, [ClientAction.warnNoCallback i])) ∧
    (st.callbacks.contains i = false →
      clientOnMessage st msg = (st, [ClientAction.warnNoCallback i])) := by
  have ht : isTruthyId msg.corrId = true := hc ▸ isTruthyId_pos hi
  have hgd : msg.corrId.getD 0 = i := by rw [hc]; rfl
  have hcf : i ∉ st.callbacks.filter (fun j => j != i) := by
    simp
  constructor
  · intro hin
    have hmem : i ∈ st.callbacks := by simpa using hin
    cases he : isTruthyStr msg.data.err with
    | true =>
      refine ⟨?_, ?_, ?_⟩
      · simp [clientOnMessage, ht, hgd, hmem, he]
      · simp [clientOnMessage, ht, hgd, hmem, he, hcf]
      · simp [clientOnMessage, ht, hgd, hmem, he, hcf]
    | false =>
      refine ⟨?_, ?_, ?_⟩
      · simp [clientOnMessage, ht, hgd, hmem, he]
      · simp [clientOnMessage, ht, hgd, hmem, he, hcf]
      · simp [clientOnMessage, ht, hgd, hmem, he, hcf]
  · intro hout
    have hnmem : i ∉ st.callbacks := by simpa using hout
    simp [clientOnMessage, ht, hgd, hnmem]

/-- Witness for `playnetwork_router_correlation`: a reply with registered id 5
invokes the callback once; against a state with no registration it only
warns. -/
theorem playnetwork_router_correlation_witness :
    (clientOnMessage ⟨[5], some 0, 0, 0, 6⟩
        ⟨"test", "user", none, ⟨none, none, none, none, none⟩, some 5⟩).2.count
      (ClientAction.invokeCallback 5 (jsErrOrNull none)) = 1 ∧
    clientOnMessage ⟨[], some 0, 0, 0, 6⟩
        ⟨"test", "user", none, ⟨none, none, none, none, none⟩, some 5⟩ =
      (⟨[], some 0, 0, 0, 6⟩, [ClientAction.warnNoCallback 5]) :=
  ⟨((playnetwork_router_correlation ⟨[5], some 0, 0, 0, 6⟩
        ⟨"test", "user", none, ⟨none, none, none, none, none⟩, some 5⟩ 5 rfl
        (by decide)).1 (by decide)).1,
   (playnetwork_router_correlation ⟨[], some 0, 0, 0, 6⟩
        ⟨"test", "user", none, ⟨none, none, none, none, none⟩, some 5⟩ 5 rfl
        (by decide)).2 (by decide)⟩

/-- C6, code bug, evaluated at the failing input. A user-scoped `_ping`
carrying nonce 7 and `{l: 42, i: 3, o: 4}` arriving at a fresh client: the
router does send the matching `_pong` on the same scope echoing the nonce,
but the state — in particular `latency` — is unchanged (`some 0`, not `42`),
because `msg.scope !== 'user'` compares the scope object against a string,
is always true, and returns before `this.fire('_ping')` could run
`_onPing`. -/
theorem ping_pong_sent_but_counters_not_updated :
    clientOnMessage ⟨[], some 0, 0, 0, 1⟩
        ⟨"_ping", "user", none, ⟨none, some 7, some 42, some 3, some 4⟩, none⟩ =
      (⟨[], some 0, 0, 0, 1⟩,
       [ClientAction.dispatchUser "_ping",
        ClientAction.sendPong "user" none (some 7)]) := by
  decide

/-! ## Client room join/leave requests (client `Rooms.join` / `Rooms.leave`)

`Rooms.join` reports `` `Already joined a Room ${id}` `` through the caller's
callback (when one is given) and returns without sending when the room is
already joined; `Rooms.leave` symmetrically reports
`` `Room ${id} does not exist` `` for an unknown id. Otherwise the request is
sent to the server with a callback wrapper relaying `(err, data)`. Both are
straight-line functions of the joined-rooms map: no branch throws. -/

inductive RoomsAction where
  | callbackError (e : String)
  | sendRequest (name : String) (roomId : Nat)
deriving DecidableEq, Repr

def roomsJoin (joined : List Nat) (id : Nat) (hasCallback : Bool) : List RoomsAction :=
  if joined.contains id then
    if hasCallback then [.callbackError ("Already joined a Room " ++ toString id)] else []
  else [.sendRequest "_room:join" id]

def roomsLeave (joined : List Nat) (id : Nat) (hasCallback : Bool) : List RoomsAction :=
  if !(joined.contains id) then
    if hasCallback then [.callbackError ("Room " ++ toString id ++ " does not exist")]
    else []
  else [.sendRequest "_room:leave" id]

/-- C9, confirmed. Joining an already-joined room id and leaving a
non-joined room id each report exactly one descriptive error through the
request's callback and send nothing; both operations are total functions, so
neither ever throws. -/
theorem rooms_join_leave_domain_errors (joined : List Nat) (id : Nat) :
    (joined.contains id = true →
      roomsJoin joined id true =
        [.callbackError ("Already joined a Room " ++ toString id)]) ∧
    (joined.contains id = false →
      roomsLeave joined id true =
        [.callbackError ("Room " ++ toString id ++ " does not exist")]) := by
  constructor
  · intro h
    simp [roomsJoin, show id ∈ joined by simpa using h]
  · intro h
    simp [roomsLeave, show id ∉ joined by simpa using h]

/-- Witness for `rooms_join_leave_domain_errors` with joined rooms `[7]`:
joining 7 again and leaving 9 each produce the descriptive callback error. -/
theorem rooms_join_leave_domain_errors_witness :
    roomsJoin [7] 7 true =
      [.callbackError ("Already joined a Room " ++ toString 7)] ∧
    roomsLeave [7] 9 true =
      [.callbackError ("Room " ++ toString 9 ++ " does not exist")] :=
  ⟨(rooms_join_leave_domain_errors [7] 7).1 (by decide),
   (rooms_join_leave_domain_errors [7] 9).2 (by decide)⟩

/-! ## Interpolation buffer (client `InterpolateValue`)

`InterpolateValue` keeps `states` (pending targets), `pool` (recycled value
cells, relevant only for object-typed values), blend `time`, adaptive
`speed`, the blend start `from` and the rendered `value`, with
`INTERPOLATION_STATES_LIMIT = 8` and `tickrate` fixed at construction.
Values are embedded as `ℚ`; for object-typed values `vec.copy(value)`
followed by `states.push(vec)` appends the copied value, and
`states.shift()` removes the head, so the queue of values is an ordinary
list; the pool only recycles storage cells and never changes which values
sit in the queue. -/

structure TypedInterpBuf where
  states : List ℚ
  pool : List ℚ
deriving DecidableEq, Repr

/-- Source `InterpolateValue.add` for object-typed values: when `states.length`
exceeds the limit the oldest pending target is shifted out and reused as the
cell for the new value; otherwise a cell is popped from the pool (or newly
allocated) and the new value is appended. -/
def interpAdd (limit : Nat) (b : TypedInterpBuf) (v : ℚ) : TypedInterpBuf :=
  if limit < b.states.length then
    { b with states := b.states.tail ++ [v] }
  else if 0 < b.pool.length then
    { states := b.states ++ [v], pool := b.pool.dropLast }
  else
    { b with states := b.states ++ [v] }

/-- Source `InterpolateValue.add` for non-object (scalar) values: the `else` branch
of the source pushes unconditionally — no limit check at all. -/
def interpAddScalar (states : List ℚ) (v : ℚ) : List ℚ :=
  states ++ [v]

/-- C4, counterexample. Starting from an empty object-typed buffer, nine
consecutive `add` calls leave nine pending targets: the queue length does
exceed 8, because the source evicts only when `states.length` is strictly
greater than `INTERPOLATION_STATES_LIMIT = 8`. -/
theorem interpolate_add_exceeds_eight :
    8 < ((List.replicate 9 (0 : ℚ)).foldl (fun b v => interpAdd 8 b v)
          (TypedInterpBuf.mk [] [])).states.length := by
  decide

/-- C4, amended claim. For object-typed values the pending queue is bounded
at 9, not 8: an `add` performed when the length strictly exceeds the limit 8
evicts the oldest pending target (the head) and appends the new one, so
lengths up to 9 are preserved; for non-object values `add` always appends
and imposes no bound at all. -/
theorem interpolate_add_bounded_by_nine (b : TypedInterpBuf) (v : ℚ) :
    (b.states.length ≤ 9 → (interpAdd 8 b v).states.length ≤ 9) ∧
    (8 < b.states.length → (interpAdd 8 b v).states = b.states.tail ++ [v]) ∧
    interpAddScalar b.states v = b.states ++ [v] := by
  refine ⟨?_, ?_, rfl⟩
  · intro h9
    unfold interpAdd
    by_cases h8 : 8 < b.states.length
    · rw [if_pos h8]
      simp only [List.length_append, List.length_tail, List.length_cons,
        List.length_nil]
      omega
    · rw [if_neg h8]
      by_cases hp : 0 < b.pool.length
      · rw [if_pos hp]
        simp only [List.length_append, List.length_cons, List.length_nil]
        omega
      · rw [if_neg hp]
        simp only [List.length_append, List.length_cons, List.length_nil]
        omega
  · intro h8
    unfold interpAdd
    rw [if_pos h8]

/-- Witness for `interpolate_add_bounded_by_nine` on a full buffer of nine
targets `[1..9]`: adding `10` keeps the length at 9 and evicts the oldest
target `1`, and the scalar branch appends. -/
theorem interpolate_add_bounded_by_nine_witness :
    ((interpAdd 8 (TypedInterpBuf.mk [1, 2, 3, 4, 5, 6, 7, 8, 9] []) 10).states.length ≤ 9) ∧
    ((interpAdd 8 (TypedInterpBuf.mk [1, 2, 3, 4, 5, 6, 7, 8, 9] []) 10).states =
      [1, 2, 3, 4, 5, 6, 7, 8, 9].tail ++ [10]) ∧
    interpAddScalar [1, 2, 3, 4, 5, 6, 7, 8, 9] 10 = [1, 2, 3, 4, 5, 6, 7, 8, 9] ++ [10] :=
  ⟨(interpolate_add_bounded_by_nine (TypedInterpBuf.mk [1, 2, 3, 4, 5, 6, 7, 8, 9] []) 10).1
      (by decide),
   (interpolate_add_bounded_by_nine (TypedInterpBuf.mk [1, 2, 3, 4, 5, 6, 7, 8, 9] []) 10).2.1
      (by decide),
   (interpolate_add_bounded_by_nine (TypedInterpBuf.mk [1, 2, 3, 4, 5, 6, 7, 8, 9] []) 10).2.2⟩

/-! ### `InterpolateValue.update` for scalar (non-object) values

`current` is 0 both at construction and after every `update` call (it is
incremented and immediately driven back to 0 by the `while` loop), so the
consumption step pops exactly one pending target and the read
`this.states[this.current]` is the head of the queue. The scalar rendering
line of the source is

  `this.value = this.from * lerp + this.value * (1 - lerp);`

— the head target `to` is read but never used. The pool push of the shifted
state is storage recycling and is omitted since scalar `add` never reads the
pool. -/

structure ScalarInterp where
  states : List ℚ
  time : ℚ
  speed : ℚ
  fromVal : ℚ
  value : ℚ
  tickrate : ℚ
deriving DecidableEq, Repr

def scalarUpdate (s : ScalarInterp) (dt : ℚ) : ScalarInterp :=
  if s.states.isEmpty then s
  else
    let duration := 1 / s.tickrate
    let target := 1 + max 0 (min 10 ((s.states.length : ℚ) - 2)) * (1 / 100)
    let speed1 := s.speed + (target - s.speed) * (1 / 10)
    let time1 := s.time + dt * speed1
    let consumed := duration ≤ time1
    let time2 := if consumed then time1 - duration else time1
    let from2 := if consumed then s.value else s.fromVal
    let states2 := if consumed then s.states.tail else s.states
    if states2.isEmpty then
      { s with states := states2, time := time2, speed := speed1, fromVal := from2 }
    else
      let lerp := min 1 (time2 / duration)
      let value2 := from2 * lerp + s.value * (1 - lerp)
      { states := states2, time := time2, speed := speed1, fromVal := from2,
        value := value2, tickrate := s.tickrate }

/-- C5, code bug, evaluated at the failing input. A scalar buffer at
`tickrate = 1` with one pending target `10`, `from = 0`, `value = 0`,
ticked by `dt = 1/2`: the blend fraction is `min(1, time/duration) = 1/2`
as specified, but the rendered value stays `0` instead of the claimed
interpolation `from + (to − from) · 1/2 = 5` toward the head target —
the scalar branch of the source never uses the target it read. -/
theorem interpolate_update_scalar_ignores_target :
    (scalarUpdate (ScalarInterp.mk [10] 0 1 0 0 1) (1 / 2)).value = 0 ∧
    (scalarUpdate (ScalarInterp.mk [10] 0 1 0 0 1) (1 / 2)).time / 1 = 1 / 2 ∧
    (scalarUpdate (ScalarInterp.mk [10] 0 1 0 0 1) (1 / 2)).value ≠
      0 + (10 - 0) * min 1 ((1 / 2 : ℚ) / 1) := by
  have h : scalarUpdate (ScalarInterp.mk [10] 0 1 0 0 1) (1 / 2) =
      ScalarInterp.mk [10] (1 / 2) 1 0 0 1 := by
    norm_num [scalarUpdate, min_def, max_def]
  refine ⟨by rw [h], by rw [h]; norm_num, by rw [h]; norm_num⟩

/-! ## User lifetime (client `User.addPlayer` destroy listener)

`User.addPlayer` subscribes a one-shot listener to the player's `destroy`
signal which removes the room and player from the user's sets and from
`_playersByRoom`, fires `leave`, and then — unless `this.me` is set or
`_playersByRoom` is still non-empty — calls `this.destroy()` in the same
synchronous step. `me` is the `isLocal` flag of the claim; `destroyed`
records that `destroy()` (and hence the one-shot `destroy` signal) ran. -/

structure UserModel where
  me : Bool
  playersByRoom : List (Nat × Nat)
  destroyed : Bool
deriving DecidableEq, Repr

/-- The player-destroy listener installed by `User.addPlayer`, for the
player owned in room `roomId`. -/
def userOnPlayerDestroy (u : UserModel) (roomId : Nat) : UserModel :=
  let pbr := u.playersByRoom.filter (fun p => p.1 != roomId)
  if u.me ∨ 0 < pbr.length then { u with playersByRoom := pbr }
  else { u with playersByRoom := pbr, destroyed := true }

lemma userOnPlayerDestroy_me (u : UserModel) (roomId : Nat) (h : u.me = true) :
    (userOnPlayerDestroy u roomId).me = true ∧
    (userOnPlayerDestroy u roomId).destroyed = u.destroyed := by
  unfold userOnPlayerDestroy
  rw [if_pos (Or.inl (show u.me = true from h))]
  exact ⟨h, rfl⟩

lemma foldl_userOnPlayerDestroy_me (rs : List Nat) :
    ∀ u : UserModel, u.me = true →
      (rs.foldl userOnPlayerDestroy u).destroyed = u.destroyed := by
  induction rs with
  | nil => intro u _; rfl
  | cons r rest ih =>
    intro u h
    have hm := userOnPlayerDestroy_me u r h
    simp only [List.foldl_cons]
    rw [ih (userOnPlayerDestroy u r) hm.1, hm.2]

/-- C8, confirmed. When the destroy signal of a player of a non-`me`
(`isLocal = false`) user fires and that player was the last one (the
`_playersByRoom` map is empty after its removal), the user is destroyed in
the same synchronous step; a `me` (`isLocal = true`) user is never destroyed
by any sequence of player removals. -/
theorem user_destroyed_with_last_player (u : UserModel) (roomId : Nat) :
    (u.me = false → u.playersByRoom.filter (fun p => p.1 != roomId) = [] →
      (userOnPlayerDestroy u roomId).destroyed = true) ∧
    (u.me = true → u.destroyed = false →
      ∀ rs : List Nat, (rs.foldl userOnPlayerDestroy u).destroyed = false) := by
  constructor
  · intro hme hempty
    unfold userOnPlayerDestroy
    rw [hempty]
    rw [if_neg]
    intro hor
    cases hor with
    | inl h => rw [hme] at h; exact absurd h (by decide)
    | inr h => exact absurd h (by decide)
  · intro hme hdes rs
    rw [foldl_userOnPlayerDestroy_me rs u hme, hdes]

/-- Witness for `user_destroyed_with_last_player`: a non-`me` user whose only
player (in room 1) is destroyed is destroyed in the same step, while a `me`
user survives the removal of all of its players. -/
theorem user_destroyed_with_last_player_witness :
    (userOnPlayerDestroy (UserModel.mk false [(1, 10)] false) 1).destroyed = true ∧
    ([1, 2].foldl userOnPlayerDestroy (UserModel.mk true [(1, 10), (2, 20)] false)).destroyed
      = false :=
  ⟨(user_destroyed_with_last_player (UserModel.mk false [(1, 10)] false) 1).1 rfl (by decide),
   (user_destroyed_with_last_player (UserModel.mk true [(1, 10), (2, 20)] false) 1).2 rfl rfl
     [1, 2]⟩

/-! ## Server root dispatch (server `PlayNetwork._onMessage`)

The root process keeps routing tables `routes.rooms : roomId → WorkerNode`
and `routes.networkEntities : networkEntityId → WorkerNode` (embedded as
association lists from ids to node indices) plus the node map. `_onMessage`
first consumes the message on the root when a listener for `msg.name` is
registered there; otherwise it switches on `msg.scope?.type`: a user-scoped
message recognized by the user's own handlers fires there, else fans out to
every node; a room- or networkEntity-scoped message builds
`nodes = [routes....get(msg.scope.id)]`. When that lookup misses, `nodes` is
`[undefined]` — it passes the `if (!nodes.length) return` guard and the loop
body `node?.send(...)` performs nothing: the message is dropped with no
callback invocation. `ServerAction.callbackError` exists so direct error
surfacing through the request's callback is expressible; `_onMessage` never
produces it. -/

structure ServerMsg where
  name : String
  scopeType : Option String
  scopeId : Option Nat
deriving DecidableEq, Repr

structure ServerState where
  rootEvents : List String
  userEvents : List String
  nodes : List Nat
  roomRoutes : List (Nat × Nat)
  entityRoutes : List (Nat × Nat)
deriving DecidableEq, Repr

inductive ServerAction where
  | fireRoot (name : String)
  | fireUser (name : String)
  | sendToNode (node : Nat)
  | callbackError (e : String)
deriving DecidableEq, Repr

/-- Routing-table lookup `routes....get(msg.scope.id)`: a `Map` keyed by ids, looked up with a
possibly absent scope id. -/
def lookupRoute (routes : List (Nat × Nat)) : Option Nat → Option Nat
  | none => none
  | some sid => routes.lookup sid

def serverOnMessage (st : ServerState) (msg : ServerMsg) : List ServerAction :=
  if st.rootEvents.contains msg.name then [.fireRoot msg.name]
  else if msg.scopeType = some "user" then
    if st.userEvents.contains msg.name then [.fireUser msg.name]
    else st.nodes.map ServerAction.sendToNode
  else if msg.scopeType = some "room" then
    match lookupRoute st.roomRoutes msg.scopeId with
    | some n => [.sendToNode n]
    | none => []
  else if msg.scopeType = some "networkEntity" then
    match lookupRoute st.entityRoutes msg.scopeId with
    | some n => [.sendToNode n]
    | none => []
  else []

/-- C10, confirmed. A message whose name has a listener registered on the
root `PlayNetwork` object is consumed entirely on the root — fired there
with `(user, data, callback)` — and nothing is forwarded to any shard,
whatever the scope type: root-level handlers take precedence over
room/networkEntity ownership routing and over user-scope fan-out. -/
theorem server_root_handler_consumes_message (st : ServerState) (msg : ServerMsg)
    (h : st.rootEvents.contains msg.name = true) :
    serverOnMessage st msg = [.fireRoot msg.name] := by
  unfold serverOnMessage
  rw [if_pos (by simpa using h)]

/-- Witness for `server_root_handler_consumes_message`: a room-scoped message
with a registered owner is still consumed on the root when the root has a
listener for its name. -/
theorem server_root_handler_consumes_message_witness :
    serverOnMessage (ServerState.mk ["boom"] [] [0, 1] [(5, 1)] [])
        (ServerMsg.mk "boom" (some "room") (some 5)) =
      [.fireRoot "boom"] :=
  server_root_handler_consumes_message
    (ServerState.mk ["boom"] [] [0, 1] [(5, 1)] [])
    (ServerMsg.mk "boom" (some "room") (some 5)) (by decide)

/-- C1, counterexample. A room-scoped message whose room id 5 has no owning
shard registered (the routing table only maps room 1), arriving with a
callback attached and no root listener: `_onMessage` produces no action at
all — in particular no `callbackError` — so no "no such target" error
reaches the caller; the message is dropped silently, contradicting the
claim. -/
theorem server_unrouted_room_message_dropped_silently :
    serverOnMessage (ServerState.mk [] [] [0, 1] [(1, 0)] [])
        (ServerMsg.mk "foo" (some "room") (some 5)) = [] := by
  decide

/-- C1, amended claim. A room- or networkEntity-scoped message not consumed
by a root listener is forwarded to exactly the single shard owning its scope
id when one is registered; when no owning shard is registered the message is
dropped silently — no forward and no callback invocation — rather than a
"no such target" error being surfaced to the caller. -/
theorem server_scoped_dispatch_single_owner_or_drop (st : ServerState) (msg : ServerMsg)
    (hroot : st.rootEvents.contains msg.name = false) :
    (msg.scopeType = some "room" →
      (∀ n, lookupRoute st.roomRoutes msg.scopeId = some n →
        serverOnMessage st msg = [.sendToNode n]) ∧
      (lookupRoute st.roomRoutes msg.scopeId = none → serverOnMessage st msg = [])) ∧
    (msg.scopeType = some "networkEntity" →
      (∀ n, lookupRoute st.entityRoutes msg.scopeId = some n →
        serverOnMessage st msg = [.sendToNode n]) ∧
      (lookupRoute st.entityRoutes msg.scopeId = none → serverOnMessage st msg = [])) := by
  have hr : ¬ st.rootEvents.contains msg.name = true := by
    rw [hroot]; decide
  constructor
  · intro hscope
    constructor
    · intro n hn
      unfold serverOnMessage
      rw [if_neg (by simpa using hr), if_neg (by rw [hscope]; decide),
        if_pos hscope, hn]
    · intro hn
      unfold serverOnMessage
      rw [if_neg (by simpa using hr), if_neg (by rw [hscope]; decide),
        if_pos hscope, hn]
  · intro hscope
    constructor
    · intro n hn
      unfold serverOnMessage
      rw [if_neg (by simpa using hr), if_neg (by rw [hscope]; decide),
        if_neg (by rw [hscope]; decide), if_pos hscope, hn]
    · intro hn
      unfold serverOnMessage
      rw [if_neg (by simpa using hr), if_neg (by rw [hscope]; decide),
        if_neg (by rw [hscope]; decide), if_pos hscope, hn]

/-- Witness for `server_scoped_dispatch_single_owner_or_drop`: with room 1
owned by shard 0 and entity 9 owned by no shard, a room-1 message is
forwarded exactly to shard 0 and an entity-9 message is dropped. -/
theorem server_scoped_dispatch_single_owner_or_drop_witness :
    serverOnMessage (ServerState.mk [] [] [0, 1] [(1, 0)] [])
        (ServerMsg.mk "bar" (some "room") (some 1)) = [.sendToNode 0] ∧
    serverOnMessage (ServerState.mk [] [] [0, 1] [(1, 0)] [])
        (ServerMsg.mk "baz" (some "networkEntity") (some 9)) = [] :=
  ⟨((server_scoped_dispatch_single_owner_or_drop
      (ServerState.mk [] [] [0, 1] [(1, 0)] [])
      (ServerMsg.mk "bar" (some "room") (some 1)) (by decide)).1 rfl).1 0 (by decide),
   ((server_scoped_dispatch_single_owner_or_drop
      (ServerState.mk [] [] [0, 1] [(1, 0)] [])
      (ServerMsg.mk "baz" (some "networkEntity") (some 9)) (by decide)).2 rfl).2 (by decide)⟩
